import Mathlib

/-!
Verification of the contact-extraction and lead-scoring core of the
Concrete Genius lead pipeline.

The development shallowly embeds the relevant Python sources:

* `cg_runner.py` — URL normalisation, email extraction and de-obfuscation,
  contact ranking (`pick_best_emails`), per-site scraping (`scrape_site`),
  the resume filter and the per-chunk batch loop of `run`.
* `lead_scoring.py` — `as_bool`, `is_role_email`, `infer_contact_quality`,
  `verif_points`, `biztype_bonus`, `compute_score` and `tier`.

Row fields flowing through the pipeline originate from CSV files, so they
are modelled as `String`s; machine integers do not overflow in these
scripts, so scores are modelled as `Int`.  Network, DNS, the HTML parser
and the phone-number library are external collaborators and are passed in
as explicit oracle functions where the code calls them.
-/

set_option maxRecDepth 8000

namespace ConcreteGenius

/-! ### Python string primitives

Small character-list implementations of the Python `str` methods used by
the sources (`.strip()`, `.lower()`, `.split("@")[0]`, `.startswith`,
`.endswith`).  All strings in the repository are ASCII, and the
implementations below agree with Python on ASCII input. -/

/-- Whitespace characters recognised by Python's `str.strip()` (ASCII). -/
def isPySpace (c : Char) : Bool :=
  c = ' ' || c = '\t' || c = '\n' || c = '\r' || c = '\x0b' || c = '\x0c'

/-- Python `s.strip()`. -/
def pyStrip (s : String) : String :=
  ⟨((s.data.dropWhile isPySpace).reverse.dropWhile isPySpace).reverse⟩

/-- Python `s.lower()` (ASCII). -/
def strLower (s : String) : String :=
  ⟨s.data.map Char.toLower⟩

/-- Python `e.split("@")[0]` (equivalently `e.split("@", 1)[0]`): the
characters before the first `@`, or the whole string when there is none. -/
def localPart (e : String) : String :=
  ⟨e.data.takeWhile (fun c => c ≠ '@')⟩

/-- Python `s.endswith(t)`. -/
def strEndsWith (s t : String) : Bool :=
  t.data.isSuffixOf s.data

/-- Python `s.startswith(t)`. -/
def strStartsWith (s t : String) : Bool :=
  t.data.isPrefixOf s.data

namespace LeadScoring

/-- Role-address lexicon of `lead_scoring.py` (a Python `set`; membership
only is used, so a list models it). -/
def ROLE_EMAILS : List String :=
  ["info", "sales", "office", "contact", "admin", "support", "hello",
   "enquiries", "service", "orders", "jobs", "hr", "careers", "noreply"]

/-- Verification statuses worth 2 points. -/
def GOOD_VERIF_2 : List String := ["valid", "verified", "deliverable"]

/-- Verification statuses worth 1 point. -/
def GOOD_VERIF_1 : List String :=
  ["mx_present", "accept_all", "catch_all", "risky", "unknown", "ok"]

/-- Verification statuses worth 0 points. -/
def BAD_VERIF_0 : List String :=
  ["invalid", "undeliverable", "disposable", "bad", "rejected"]

/-- `as_bool` of `lead_scoring.py`, on the string branch (CSV values are
strings): true exactly when the stripped, lowered value is one of
`1`, `true`, `yes`, `y`. -/
def as_bool (v : String) : Bool :=
  decide (strLower (pyStrip v) ∈ ["1", "true", "yes", "y"])

/-- `is_role_email` of `lead_scoring.py`. -/
def is_role_email (addr : String) : Bool :=
  if addr = "" ∨ ¬ addr.data.contains '@' then false
  else
    let loc := strLower (localPart addr)
    decide (loc ∈ ROLE_EMAILS) || strStartsWith loc "info" ||
      strStartsWith loc "sales" || strEndsWith loc "support"

/-- One input row of `lead_scoring.py`.  Fields are CSV strings; a missing
column is the empty string (the script backfills missing columns with
`""`).  `profile_confidence` is modelled as the result of the
`int(float(...))` parse: `none` when the parse raises. -/
structure Row where
  product_fit : String
  contact_quality : String
  email : String
  email_final : String
  phone : String
  verification_status : String
  linkedin_url : String
  business_type : String
  profile_confidence : Option Int
deriving DecidableEq

/-- `infer_contact_quality` of `lead_scoring.py`. -/
def infer_contact_quality (row : Row) : String :=
  let cq := row.contact_quality
  if cq = "named_email" ∨ cq = "role_email" ∨ cq = "phone_only" then cq
  else
    let email := pyStrip (if row.email ≠ "" then row.email else row.email_final)
    let phone := pyStrip row.phone
    if email ≠ "" then (if is_role_email email then "role_email" else "named_email")
    else if phone ≠ "" then "phone_only"
    else ""

/-- `verif_points` of `lead_scoring.py` (the local `s` is the stripped,
lowered status). -/
def verif_points (status : String) : Int :=
  if strLower (pyStrip status) ∈ GOOD_VERIF_2 then 2
  else if strLower (pyStrip status) ∈ GOOD_VERIF_1 then 1
  else if strLower (pyStrip status) ∈ BAD_VERIF_0 then 0
  else 0

/-- `biztype_bonus` of `lead_scoring.py`. -/
def biztype_bonus (bt : String) : Int :=
  if strLower bt = "producer_plant" then 1 else 0

/-- Contact-quality points of `compute_score` (step 1 of the function). -/
def cq_points (row : Row) : Int :=
  if infer_contact_quality row = "named_email" then 3
  else if infer_contact_quality row = "role_email" then 2
  else if infer_contact_quality row = "phone_only" then 1
  else 0

/-- LinkedIn-presence bonus of `compute_score` (step 3). -/
def li_bonus (linkedin_url : String) : Int :=
  if pyStrip linkedin_url ≠ "" then 1 else 0

/-- Profile-confidence bonus of `compute_score` (step 5); the argument is
the parsed `int(float(row.get("profile_confidence", 0)))`, `none` when the
parse raised (the `except` branch adds nothing). -/
def pc_bonus (pc : Option Int) : Int :=
  match pc with
  | some v => if 80 ≤ v then 1 else 0
  | none => 0

/-- `compute_score` of `lead_scoring.py`: the additive point model,
capped at 10. -/
def compute_score (row : Row) : Int :=
  min ((if as_bool row.product_fit then (4 : Int) else 0)
    + cq_points row
    + verif_points row.verification_status
    + li_bonus row.linkedin_url
    + biztype_bonus row.business_type
    + pc_bonus row.profile_confidence) 10

/-- `tier` of `lead_scoring.py`. -/
def tier (score : Int) : String :=
  if 8 ≤ score then "A" else if 5 ≤ score then "B" else "C"

end LeadScoring

/-! ### Bounds helper lemmas for the scorer -/

theorem verif_points_bounds (s : String) :
    0 ≤ LeadScoring.verif_points s ∧ LeadScoring.verif_points s ≤ 2 := by
  unfold LeadScoring.verif_points
  split_ifs <;> omega

theorem biztype_bonus_bounds (bt : String) :
    0 ≤ LeadScoring.biztype_bonus bt ∧ LeadScoring.biztype_bonus bt ≤ 1 := by
  unfold LeadScoring.biztype_bonus
  split_ifs <;> omega

theorem cq_points_bounds (row : LeadScoring.Row) :
    0 ≤ LeadScoring.cq_points row ∧ LeadScoring.cq_points row ≤ 3 := by
  unfold LeadScoring.cq_points
  split_ifs <;> omega

theorem li_bonus_bounds (s : String) :
    0 ≤ LeadScoring.li_bonus s ∧ LeadScoring.li_bonus s ≤ 1 := by
  unfold LeadScoring.li_bonus
  split_ifs <;> omega

theorem pc_bonus_bounds (pc : Option Int) :
    0 ≤ LeadScoring.pc_bonus pc ∧ LeadScoring.pc_bonus pc ≤ 1 := by
  cases pc with
  | none => simp [LeadScoring.pc_bonus]
  | some v =>
    simp only [LeadScoring.pc_bonus]
    split_ifs <;> omega

theorem tier_eq_A_iff (s : Int) : LeadScoring.tier s = "A" ↔ 8 ≤ s := by
  unfold LeadScoring.tier
  split_ifs with h1 h2
  · exact iff_of_true rfl h1
  · exact iff_of_false (by decide) h1
  · exact iff_of_false (by decide) h1

theorem tier_eq_B_iff (s : Int) : LeadScoring.tier s = "B" ↔ 5 ≤ s ∧ s < 8 := by
  unfold LeadScoring.tier
  split_ifs with h1 h2
  · exact iff_of_false (by decide) (by omega)
  · exact iff_of_true rfl ⟨h2, by omega⟩
  · exact iff_of_false (by decide) (by omega)

theorem tier_eq_C_iff (s : Int) : LeadScoring.tier s = "C" ↔ s < 5 := by
  unfold LeadScoring.tier
  split_ifs with h1 h2
  · exact iff_of_false (by decide) (by omega)
  · exact iff_of_false (by decide) (by omega)
  · exact iff_of_true rfl (by omega)

/-- C2: for every input row, `compute_score` returns an integer in
`[0, 10]`, and `tier` of that score is `A` iff the score is at least 8,
`B` iff it is in `[5, 8)`, and `C` iff it is below 5. -/
theorem C2_score_bounds_and_tier (row : LeadScoring.Row) :
    0 ≤ LeadScoring.compute_score row ∧ LeadScoring.compute_score row ≤ 10 ∧
    (LeadScoring.tier (LeadScoring.compute_score row) = "A" ↔
      8 ≤ LeadScoring.compute_score row) ∧
    (LeadScoring.tier (LeadScoring.compute_score row) = "B" ↔
      5 ≤ LeadScoring.compute_score row ∧ LeadScoring.compute_score row < 8) ∧
    (LeadScoring.tier (LeadScoring.compute_score row) = "C" ↔
      LeadScoring.compute_score row < 5) := by
  have hv := verif_points_bounds row.verification_status
  have hb := biztype_bonus_bounds row.business_type
  have hc := cq_points_bounds row
  have hl := li_bonus_bounds row.linkedin_url
  have hp := pc_bonus_bounds row.profile_confidence
  refine ⟨?_, ?_, tier_eq_A_iff _, tier_eq_B_iff _, tier_eq_C_iff _⟩
  · unfold LeadScoring.compute_score
    split_ifs <;> omega
  · unfold LeadScoring.compute_score
    split_ifs <;> omega

/-- C7: flipping `product_fit` from a falsy value to a truthy value while
every other field is unchanged never decreases `compute_score`. -/
theorem C7_product_fit_monotone (row : LeadScoring.Row) (v : String)
    (hfalse : LeadScoring.as_bool row.product_fit = false)
    (htrue : LeadScoring.as_bool v = true) :
    LeadScoring.compute_score row ≤
      LeadScoring.compute_score { row with product_fit := v } := by
  have hcq : LeadScoring.cq_points { row with product_fit := v } =
      LeadScoring.cq_points row := rfl
  unfold LeadScoring.compute_score
  rw [hcq]
  have hvs : ({ row with product_fit := v } : LeadScoring.Row).verification_status =
      row.verification_status := rfl
  have hli : ({ row with product_fit := v } : LeadScoring.Row).linkedin_url =
      row.linkedin_url := rfl
  have hbt : ({ row with product_fit := v } : LeadScoring.Row).business_type =
      row.business_type := rfl
  have hpc : ({ row with product_fit := v } : LeadScoring.Row).profile_confidence =
      row.profile_confidence := rfl
  have hpf : ({ row with product_fit := v } : LeadScoring.Row).product_fit = v := rfl
  rw [hvs, hli, hbt, hpc, hpf, hfalse, htrue]
  simp only [if_true, if_false]
  omega

/-- C7 witness: an all-empty row (falsy `product_fit`) never scores above
the same row with `product_fit = "true"`. -/
theorem C7_product_fit_monotone_witness :
    LeadScoring.as_bool (LeadScoring.Row.mk "" "" "" "" "" "" "" "" none).product_fit = false ∧
    LeadScoring.as_bool "true" = true ∧
    LeadScoring.compute_score (LeadScoring.Row.mk "" "" "" "" "" "" "" "" none) ≤
      LeadScoring.compute_score
        { LeadScoring.Row.mk "" "" "" "" "" "" "" "" none with product_fit := "true" } :=
  ⟨by decide, by decide,
    C7_product_fit_monotone (LeadScoring.Row.mk "" "" "" "" "" "" "" "" none) "true"
      (by decide) (by decide)⟩

/-- C10: `is_role_email` returns true exactly when the address contains an
`@` and its lowered local part is in the lexicon, or starts with `info`,
or starts with `sales`, or ends with `support`; consequently
`information@x.com`, whose local part is not in the lexicon, is classified
`role_email` by `infer_contact_quality` and is worth 2 points. -/
theorem C10_role_email_characterization :
    (∀ addr : String,
      LeadScoring.is_role_email addr = true ↔
        (addr.data.contains '@' = true ∧
          (strLower (localPart addr) ∈ LeadScoring.ROLE_EMAILS ∨
            strStartsWith (strLower (localPart addr)) "info" = true ∨
            strStartsWith (strLower (localPart addr)) "sales" = true ∨
            strEndsWith (strLower (localPart addr)) "support" = true))) ∧
    LeadScoring.is_role_email "information@x.com" = true ∧
    "information" ∉ LeadScoring.ROLE_EMAILS ∧
    LeadScoring.infer_contact_quality
      (LeadScoring.Row.mk "" "" "information@x.com" "" "" "" "" "" none) = "role_email" ∧
    LeadScoring.compute_score
      (LeadScoring.Row.mk "" "" "information@x.com" "" "" "" "" "" none) = 2 := by
  refine ⟨?_, by decide, by decide, by decide, by decide⟩
  intro addr
  unfold LeadScoring.is_role_email
  split_ifs with h
  · rcases h with h | h
    · subst h
      simp
    · simp only [Bool.false_eq_true, false_iff, not_and]
      intro hc
      exact absurd hc h
  · push_neg at h
    simp only [Bool.or_eq_true, decide_eq_true_eq]
    constructor
    · intro hx
      exact ⟨h.2, by tauto⟩
    · intro hx
      tauto

namespace CgRunner

/-- Role-address lexicon of `cg_runner.py` (distinct from the scorer's,
which has five extra entries). -/
def ROLE_EMAILS : List String :=
  ["info", "sales", "office", "contact", "admin", "support", "hello",
   "enquiries", "service"]

/-- `MAX_EMAILS_PER_DOMAIN` of `cg_runner.py`. -/
def MAX_EMAILS_PER_DOMAIN : Nat := 3

/-- Sort key `score` local to `pick_best_emails`: the pair
`(0 if the local part is not in ROLE_EMAILS else 1, len(local))`. -/
def score (e : String) : Nat × Nat :=
  ((if decide (localPart e ∈ ROLE_EMAILS) then 1 else 0), (localPart e).length)

/-- Python's lexicographic order on pairs, as used by `list.sort(key=...)`
with a tuple key (ascending). -/
def keyLe (p q : Nat × Nat) : Prop :=
  p.1 < q.1 ∨ (p.1 = q.1 ∧ p.2 ≤ q.2)

instance (p q : Nat × Nat) : Decidable (keyLe p q) := by
  unfold keyLe; infer_instance

/-- Comparison of two candidate emails by their sort keys; `list.sort` is
stable, so `List.insertionSort` by this relation computes exactly the
Python result. -/
def emailLe (a b : String) : Prop := keyLe (score a) (score b)

instance (a b : String) : Decidable (emailLe a b) := by
  unfold emailLe; infer_instance

instance : IsTotal String emailLe :=
  ⟨by intro a b; unfold emailLe keyLe; omega⟩

instance : IsTrans String emailLe :=
  ⟨by intro a b c; unfold emailLe keyLe; omega⟩

/-- The `domain_emails` partition of `pick_best_emails`: candidates ending
in `"@" + domain`. -/
def domainEmails (domain : String) (emails : List String) : List String :=
  emails.filter (fun e => strEndsWith e ("@" ++ domain))

/-- The `ext_emails` partition of `pick_best_emails`: candidates not in
the `domain_emails` list. -/
def extEmails (domain : String) (emails : List String) : List String :=
  emails.filter (fun e => !(decide (e ∈ domainEmails domain emails)))

/-- `pick_best_emails` of `cg_runner.py`.  The argument list is the
iteration order in which Python enumerates the (unordered) candidate set;
both partitions are sorted stably by `score` and concatenated, and the
result is truncated to `MAX_EMAILS_PER_DOMAIN`. -/
def pick_best_emails (domain : String) (emails : List String) : List String :=
  (List.insertionSort emailLe (domainEmails domain emails) ++
    List.insertionSort emailLe (extEmails domain emails)).take MAX_EMAILS_PER_DOMAIN

end CgRunner

/-! ### Claims about the Contact Ranker -/

/-- C9: the Ranker returns at most `MAX_EMAILS_PER_DOMAIN` (3) emails. -/
theorem C9_ranker_bounded (domain : String) (emails : List String) :
    (CgRunner.pick_best_emails domain emails).length ≤
      CgRunner.MAX_EMAILS_PER_DOMAIN := by
  unfold CgRunner.pick_best_emails CgRunner.MAX_EMAILS_PER_DOMAIN
  simp only [List.length_take]
  omega

/-- C1, evaluated at the failing input: for the same-domain named
candidates `al@x.com` and `joseph.smith@x.com` (neither local part in the
role lexicon), `pick_best_emails` places the SHORTER local part first in
either enumeration order — `list.sort(key=score)` sorts the length
component ascending — where the claim (and the code's own comment
`named first, then longer local part`) requires the longer one first. -/
theorem C1_tiebreak_divergence :
    CgRunner.pick_best_emails "x.com" ["joseph.smith@x.com", "al@x.com"] =
        ["al@x.com", "joseph.smith@x.com"] ∧
    CgRunner.pick_best_emails "x.com" ["al@x.com", "joseph.smith@x.com"] =
        ["al@x.com", "joseph.smith@x.com"] ∧
    strEndsWith "al@x.com" ("@" ++ "x.com") = true ∧
    strEndsWith "joseph.smith@x.com" ("@" ++ "x.com") = true ∧
    localPart "al@x.com" ∉ CgRunner.ROLE_EMAILS ∧
    localPart "joseph.smith@x.com" ∉ CgRunner.ROLE_EMAILS ∧
    (localPart "al@x.com").length < (localPart "joseph.smith@x.com").length := by
  decide

/-- C6 counterexample: two enumerations of the same candidate set (the
lists are permutations of each other) on which the Ranker returns
different ordered results, because the stable sort preserves the
enumeration order of candidates with equal `(role, length)` keys. -/
theorem C6_ranker_order_dependence :
    ["ab@x.com", "cd@x.com"].Perm ["cd@x.com", "ab@x.com"] ∧
    CgRunner.pick_best_emails "x.com" ["ab@x.com", "cd@x.com"] ≠
      CgRunner.pick_best_emails "x.com" ["cd@x.com", "ab@x.com"] := by
  decide

/-- A sorted list is determined by its multiset of elements when the order
relation is antisymmetric on those elements. -/
theorem sorted_perm_eq_of_forall_antisymm {α : Type} {r : α → α → Prop} :
    ∀ {l₁ l₂ : List α}, l₁.Perm l₂ → l₁.Sorted r → l₂.Sorted r →
      (∀ a ∈ l₁, ∀ b ∈ l₁, r a b → r b a → a = b) → l₁ = l₂ := by
  intro l₁
  induction l₁ with
  | nil =>
    intro l₂ hp _ _ _
    exact (hp.symm.eq_nil).symm
  | cons a t ih =>
    intro l₂ hp hs1 hs2 hanti
    cases l₂ with
    | nil => exact absurd hp.eq_nil (List.cons_ne_nil a t)
    | cons b u =>
      have hbmem : b ∈ a :: t := hp.mem_iff.mpr (List.mem_cons_self b u)
      have hamem : a ∈ b :: u := hp.subset (List.mem_cons_self a t)
      have hab : a = b := by
        rcases List.mem_cons.mp hbmem with h | hbt
        · exact h.symm
        · rcases List.mem_cons.mp hamem with h' | hau
          · exact h'
          · exact hanti a (List.mem_cons_self a t) b hbmem
              (List.rel_of_sorted_cons hs1 b hbt)
              (List.rel_of_sorted_cons hs2 a hau)
      subst hab
      have ht : t.Perm u := hp.cons_inv
      rw [ih ht hs1.of_cons hs2.of_cons
        (fun x hx y hy => hanti x (List.mem_cons_of_mem a hx) y
          (List.mem_cons_of_mem a hy))]

theorem score_eq_of_emailLe_antisymm {a b : String}
    (h1 : CgRunner.emailLe a b) (h2 : CgRunner.emailLe b a) :
    CgRunner.score a = CgRunner.score b := by
  unfold CgRunner.emailLe CgRunner.keyLe at h1 h2
  exact Prod.ext_iff.mpr (by omega)

/-- The external partition equals a plain filter on the domain-suffix
test: membership in the `domain_emails` list is the suffix test for
elements drawn from the same candidate list. -/
theorem extEmails_eq_filter (domain : String) (l : List String) :
    CgRunner.extEmails domain l =
      l.filter (fun e => !(strEndsWith e ("@" ++ domain))) := by
  unfold CgRunner.extEmails
  apply List.filter_congr
  intro x hx
  have : decide (x ∈ CgRunner.domainEmails domain l) =
      strEndsWith x ("@" ++ domain) := by
    cases h : strEndsWith x ("@" ++ domain) with
    | true => simp [CgRunner.domainEmails, List.mem_filter, h, hx]
    | false => simp [CgRunner.domainEmails, List.mem_filter, h, hx]
  rw [this]

/-- Sorting either partition is enumeration-independent when candidates
have pairwise distinct keys. -/
theorem insertionSort_filter_perm_eq {l₁ l₂ : List String} (p : String → Bool)
    (hperm : l₁.Perm l₂)
    (hkeys : ∀ a ∈ l₁, ∀ b ∈ l₁, CgRunner.score a = CgRunner.score b → a = b) :
    List.insertionSort CgRunner.emailLe (l₁.filter p) =
      List.insertionSort CgRunner.emailLe (l₂.filter p) := by
  apply sorted_perm_eq_of_forall_antisymm
  · exact (List.perm_insertionSort CgRunner.emailLe (l₁.filter p)).trans
      ((hperm.filter p).trans
        (List.perm_insertionSort CgRunner.emailLe (l₂.filter p)).symm)
  · exact List.sorted_insertionSort CgRunner.emailLe (l₁.filter p)
  · exact List.sorted_insertionSort CgRunner.emailLe (l₂.filter p)
  · intro a ha b hb h1 h2
    have ha' : a ∈ l₁ :=
      (List.mem_filter.mp
        ((List.perm_insertionSort CgRunner.emailLe (l₁.filter p)).mem_iff.mp ha)).1
    have hb' : b ∈ l₁ :=
      (List.mem_filter.mp
        ((List.perm_insertionSort CgRunner.emailLe (l₁.filter p)).mem_iff.mp hb)).1
    exact hkeys a ha' b hb' (score_eq_of_emailLe_antisymm h1 h2)

/-- C6 amended: the Ranker is a deterministic function of the candidate
set provided no two distinct candidates share a `(role, length)` sort key;
with tied keys the stable sort exposes the set's enumeration order. -/
theorem C6_ranker_deterministic_amended (domain : String) (l₁ l₂ : List String)
    (hperm : l₁.Perm l₂)
    (hkeys : ∀ a ∈ l₁, ∀ b ∈ l₁, CgRunner.score a = CgRunner.score b → a = b) :
    CgRunner.pick_best_emails domain l₁ = CgRunner.pick_best_emails domain l₂ := by
  unfold CgRunner.pick_best_emails
  rw [extEmails_eq_filter, extEmails_eq_filter]
  unfold CgRunner.domainEmails
  rw [insertionSort_filter_perm_eq _ hperm hkeys,
    insertionSort_filter_perm_eq _ hperm hkeys]

/-- C6 amended, witnessed at a concrete tie-free candidate set enumerated
in two different orders. -/
theorem C6_ranker_deterministic_witness :
    CgRunner.pick_best_emails "x.com" ["a@x.com", "bc@x.com"] =
      CgRunner.pick_best_emails "x.com" ["bc@x.com", "a@x.com"] :=
  C6_ranker_deterministic_amended "x.com" ["a@x.com", "bc@x.com"]
    ["bc@x.com", "a@x.com"] (by decide) (by decide)

namespace CgRunner

/-! ### Contact Extractor

Character-level implementations of the specific regular expressions of
`cg_runner.py` (`EMAIL_RAW` and the six `EMAIL_OBF` rewrite patterns) with
Python `re` semantics: leftmost non-overlapping matches, greedy with
backtracking.  The scanners take the input length as fuel; every match
consumes at least one character, so the fuel never runs out. -/

/-- ASCII `\w` of the `re` module (the sources only handle ASCII text). -/
def isWordCh (c : Char) : Bool := c.isAlphanum || c = '_'

/-- The character class `[\w\.-]` of `EMAIL_RAW`. -/
def isEmailCh (c : Char) : Bool := isWordCh c || c = '.' || c = '-'

/-- Greedy `\s*`. -/
def dropPyWs (cs : List Char) : List Char := cs.dropWhile isPySpace

/-- Case-insensitive literal match returning the remainder. -/
def matchCI : List Char → List Char → Option (List Char)
  | [], cs => some cs
  | _ :: _, [] => none
  | l :: ls, c :: cs =>
    if Char.toLower c = Char.toLower l then matchCI ls cs else none

/-- Single-character literal match. -/
def matchCh (ch : Char) : List Char → Option (List Char)
  | c :: cs => if c = ch then some cs else none
  | [] => none

/-- Matcher for `\s*O\s*word\s*C\s*` (the `[at]`, `(at)`, `[dot]`, `(dot)`
obfuscation patterns) at the current position.  Each `\s*` is followed by
a non-whitespace literal, so greedy maximal munch is exact. -/
def tryObfBracket (word : List Char) (openCh closeCh : Char)
    (cs : List Char) : Option (List Char) :=
  match matchCh openCh (dropPyWs cs) with
  | none => none
  | some cs1 =>
    match matchCI word (dropPyWs cs1) with
    | none => none
    | some cs2 =>
      match matchCh closeCh (dropPyWs cs2) with
      | none => none
      | some cs3 => some (dropPyWs cs3)

/-- Matcher for `\s+word\s+` (the bare ` AT ` / ` DOT ` patterns) at the
current position. -/
def tryObfSpaced (word : List Char) (cs : List Char) : Option (List Char) :=
  match cs with
  | [] => none
  | c :: rest =>
    if isPySpace c then
      match matchCI word (dropPyWs rest) with
      | none => none
      | some cs2 =>
        match cs2 with
        | [] => none
        | d :: rest2 => if isPySpace d then some (dropPyWs rest2) else none
    else none

/-- `re.sub` of one pattern: scan left to right, at each position try the
matcher; on a match emit the replacement and continue past it. -/
def subScan (try1 : List Char → Option (List Char)) (repl : Char) :
    Nat → List Char → List Char
  | 0, cs => cs
  | _ + 1, [] => []
  | fuel + 1, c :: rest =>
    match try1 (c :: rest) with
    | some rest1 => repl :: subScan try1 repl fuel rest1
    | none => c :: subScan try1 repl fuel rest

def pySub (try1 : List Char → Option (List Char)) (repl : Char)
    (cs : List Char) : List Char :=
  subScan try1 repl cs.length cs

/-- Python `str.replace` (literal, non-overlapping, left to right); the
needle is nonempty in all uses. -/
def replaceScan (needle repl : List Char) : Nat → List Char → List Char
  | 0, cs => cs
  | _ + 1, [] => []
  | fuel + 1, c :: rest =>
    if needle.isPrefixOf (c :: rest) then
      repl ++ replaceScan needle repl fuel ((c :: rest).drop needle.length)
    else c :: replaceScan needle repl fuel rest

def pyReplace (needle repl cs : List Char) : List Char :=
  replaceScan needle repl cs.length cs

/-- Hexadecimal digit value. -/
def hexVal (c : Char) : Option Nat :=
  if '0' ≤ c ∧ c ≤ '9' then some (c.toNat - '0'.toNat)
  else if 'a' ≤ c ∧ c ≤ 'f' then some (c.toNat - 'a'.toNat + 10)
  else if 'A' ≤ c ∧ c ≤ 'F' then some (c.toNat - 'A'.toNat + 10)
  else none

/-- `urllib.parse.unquote` on ASCII input: every `%XX` escape with two hex
digits becomes the character with that code; anything else is kept. -/
def unquoteScan : Nat → List Char → List Char
  | 0, cs => cs
  | _ + 1, [] => []
  | fuel + 1, c :: rest =>
    if c = '%' then
      match rest with
      | h1 :: h2 :: rest2 =>
        match hexVal h1, hexVal h2 with
        | some v1, some v2 => Char.ofNat (16 * v1 + v2) :: unquoteScan fuel rest2
        | _, _ => c :: unquoteScan fuel rest
      | _ => c :: unquoteScan fuel rest
    else c :: unquoteScan fuel rest

def pyUnquote (cs : List Char) : List Char := unquoteScan cs.length cs

/-- `deobfuscate` of `cg_runner.py`: percent-decode, rewrite the HTML
entity and unicode-escape forms of `@`, then apply the six `EMAIL_OBF`
substitutions in source order. -/
def deobfuscate (s : String) : String :=
  let cs := pyUnquote s.data
  let cs := pyReplace "&#64;".data "@".data cs
  let cs := pyReplace "\\u0040".data "@".data cs
  let cs := pySub (tryObfBracket "at".data '[' ']') '@' cs
  let cs := pySub (tryObfBracket "at".data '(' ')') '@' cs
  let cs := pySub (tryObfSpaced "at".data) '@' cs
  let cs := pySub (tryObfBracket "dot".data '[' ']') '.' cs
  let cs := pySub (tryObfBracket "dot".data '(' ')') '.' cs
  let cs := pySub (tryObfSpaced "dot".data) '.' cs
  ⟨cs⟩

/-- Greedy backtracking split of `[\w\.-]+\.\w+` over the character run
`r2`: the largest `k ≥ 1` such that `r2[k] = '.'` and `r2[k+1]` is a word
character (the regex engine shrinks the greedy `[\w\.-]+` from the right
until the literal dot and a nonempty `\w+` fit). -/
def findDotSplit (r2 : List Char) : Nat → Option Nat
  | 0 => none
  | k + 1 =>
    if r2.getD (k + 1) ' ' = '.' ∧ isWordCh (r2.getD (k + 2) ' ') then
      some (k + 1)
    else findDotSplit r2 k

/-- Attempt to match `EMAIL_RAW` (`[\w\.-]+@[\w\.-]+\.\w+`) anchored at the
current position, returning the match and the remainder.  The first
`[\w\.-]+` must be the maximal run (no shorter prefix can be followed by
`@`, since `@` is outside the class); after `@`, the greedy run is split at
the last usable dot. -/
def matchEmailAt (cs : List Char) : Option (List Char × List Char) :=
  let r1 := cs.takeWhile isEmailCh
  if r1.isEmpty then none
  else
    match cs.drop r1.length with
    | '@' :: afterAt =>
      let r2 := afterAt.takeWhile isEmailCh
      match findDotSplit r2 r2.length with
      | some k =>
        let w := (r2.drop (k + 1)).takeWhile isWordCh
        some (r1 ++ '@' :: (r2.take k ++ '.' :: w),
          afterAt.drop (k + 1 + w.length))
      | none => none
    | _ => none

/-- `re.findall(EMAIL_RAW, ·)`: leftmost non-overlapping matches. -/
def findAllScan : Nat → List Char → List (List Char)
  | 0, _ => []
  | _ + 1, [] => []
  | fuel + 1, c :: rest =>
    match matchEmailAt (c :: rest) with
    | some (m, rest1) => m :: findAllScan fuel rest1
    | none => findAllScan fuel rest

def findEmails (cs : List Char) : List (List Char) := findAllScan cs.length cs

/-- Occurrences of `href="mailto:…"` in the raw HTML: a model of the
source's selectolax query for anchors whose `href` starts with `mailto:`,
returning each anchor's `href` attribute value.  It agrees with the HTML
parser on the plain-text and simple-anchor pages considered here. -/
def mailtoScan : Nat → List Char → List (List Char)
  | 0, _ => []
  | _ + 1, [] => []
  | fuel + 1, c :: rest =>
    if ("href=\"mailto:".data).isPrefixOf (c :: rest) then
      let val := ((c :: rest).drop 6).takeWhile (fun ch => ch ≠ '\"')
      val :: mailtoScan fuel ((c :: rest).drop (6 + val.length + 1))
    else mailtoScan fuel rest

def mailtoHrefs (html : String) : List String :=
  (mailtoScan html.data.length html.data).map (fun l => (⟨l⟩ : String))

/-- `extract_emails` of `cg_runner.py`, as the list of found addresses:
the regex pass over the de-obfuscated text, unioned with the `mailto:`
anchor pass (each href de-obfuscated, stripped of `mailto:` [7 chars] and
of query parameters, kept when `re.search(EMAIL_RAW, ·)` succeeds), all
lower-cased.  Python returns a set; it is modelled as the first-extraction
order with duplicates removed, which is how `scrape_site` iterates it. -/
def extract_emails_list (html : String) : List String :=
  let fromText := (findEmails (deobfuscate html).data).map (fun l => (⟨l⟩ : String))
  let fromMailto := (mailtoHrefs html).filterMap (fun href =>
    let e := ((deobfuscate href).data.drop 7).takeWhile (fun c => c ≠ '?')
    if (findEmails e).isEmpty then none else some (⟨e⟩ : String))
  ((fromText ++ fromMailto).map strLower).dedup

/-- `extract_emails` as the set it returns. -/
def extract_emails (html : String) : Finset String :=
  (extract_emails_list html).toFinset

end CgRunner

/-- C5: the obfuscated text round-trips — `extract_emails` on
`contact us at jane [at] acme [dot] com` yields exactly the singleton set
containing `jane@acme.com` (the bare ` at ` of `contact us at` is also
rewritten to `@` by the third obfuscation pattern, but the resulting
`us@jane` fragment has no top-level-domain dot and never matches
`EMAIL_RAW`). -/
theorem C5_obfuscation_roundtrip :
    CgRunner.extract_emails "contact us at jane [at] acme [dot] com" =
      ({"jane@acme.com"} : Finset String) := by
  decide

namespace CgRunner

/-! ### URL handling and per-site scraping -/

/-- `normalize_url` of `cg_runner.py`. -/
def normalize_url (u : String) : String :=
  if pyStrip u = "" then ""
  else if strStartsWith (pyStrip u) "http://" || strStartsWith (pyStrip u) "https://"
    then pyStrip u
  else "https://" ++ pyStrip u

/-- `CANDIDATE_PATHS` of `cg_runner.py`. -/
def CANDIDATE_PATHS : List String :=
  ["", "contact", "contact-us", "about", "team", "privacy", "impressum",
   "terms", "sitemap.xml"]

/-- The authority part of an absolute http(s) URL: scheme, `://` and the
characters before the next `/`. -/
def hostUpTo (cs : List Char) : List Char := cs.takeWhile (fun c => c ≠ '/')

def schemeHost (u : String) : String :=
  if strStartsWith u "https://" then ⟨"https://".data ++ hostUpTo (u.data.drop 8)⟩
  else if strStartsWith u "http://" then ⟨"http://".data ++ hostUpTo (u.data.drop 7)⟩
  else ""

/-- `urllib.parse.urljoin(base, p)` for the shapes `candidate_urls`
produces: an absolute http(s) base joined with a root-relative reference
replaces the base's path; a base without a scheme yields the reference. -/
def urljoinRoot (base p : String) : String :=
  if schemeHost base = "" then p else schemeHost base ++ p

/-- `candidate_urls` of `cg_runner.py`. -/
def candidate_urls (base_url : String) : List String :=
  CANDIDATE_PATHS.map (fun p =>
    if p ≠ "" ∧ ¬ strStartsWith p "/" = true then
      urljoinRoot (normalize_url base_url) ("/" ++ p)
    else urljoinRoot (normalize_url base_url) (if p = "" then "/" else p))

/-- Output row dataclass `RowOut` of `cg_runner.py`. -/
structure RowOut where
  company_name : String
  url : String
  domain : String
  email_final : String
  email_source : String
  verification_status : String
  phone : String
  source_url : String
  reason : String
  qualified : String
  product_fit : String
  score : Int
deriving DecidableEq

/-- One step of the page loop of `scrape_site`.  The fold state is the
`collected_emails` association list (email, first-seen source URL) and the
`collected_phones` set as a first-occurrence list; `fetched` is the
per-URL result of `fetch_many` and `phonesOf` is `extract_phones` (the
phonenumbers library and JSON-LD scan), whose result set is passed as its
enumeration. -/
def collectStep (fetched : String → Option String) (phonesOf : String → List String)
    (acc : List (String × String) × List String) (p : String) :
    List (String × String) × List String :=
  match fetched p with
  | none => acc
  | some html =>
    ((extract_emails_list html).foldl
      (fun (m : List (String × String)) e =>
        if decide (∃ kv ∈ m, kv.1 = e) then m else m ++ [(e, p)]) acc.1,
     (phonesOf html).foldl
      (fun (ps : List String) ph =>
        if decide (ph ∈ ps) then ps else ps ++ [ph]) acc.2)

/-- Python `sorted` on a list of strings (code-point lexicographic; any
sorted output of distinct strings is unique, so stability is moot). -/
def pySortedStrings (l : List String) : List String :=
  List.insertionSort (fun a b => a ≤ b) l

/-- `scrape_site` of `cg_runner.py`.  External effects are oracles:
`resolve` is `final_url_and_domain` (network redirect resolution plus
tldextract), `fetched` the page fetches, `phonesOf` the phone extraction,
`mx` is `mx_present` (DNS). -/
def scrape_site (resolve : String → String × String)
    (fetched : String → Option String) (phonesOf : String → List String)
    (mx : String → String) (company start_url : String) : List RowOut :=
  let final := (resolve start_url).1
  let domain := (resolve start_url).2
  let collected := (candidate_urls final).foldl (collectStep fetched phonesOf) ([], [])
  if collected.1 = [] ∧ collected.2 = [] then
    [⟨company, final, domain, "", "", "unknown", "", "", "no_contacts_found",
      "no", "", 0⟩]
  else
    let best_emails := pick_best_emails domain (collected.1.map (fun kv => kv.1))
    let mx_status := mx domain
    if best_emails ≠ [] then
      best_emails.map (fun e =>
        let role := decide (localPart e ∈ ROLE_EMAILS)
        ⟨company, final, domain, e, "mailto/raw/decoded", mx_status,
          String.intercalate ";" (pySortedStrings collected.2),
          (match collected.1.find? (fun kv => kv.1 == e) with
           | some kv => kv.2
           | none => final),
          "regex_scrape", (if role then "maybe" else "yes"), "",
          (if role then 70 else 90)⟩)
    else
      [⟨company, final, domain, "", "", mx_status,
        String.intercalate ";" (pySortedStrings collected.2),
        final, "phone_only", "maybe", "", 60⟩]

/-! ### Resume logic of `run` -/

/-- The resume keys read from an existing output file (`run`): the
stripped `(company_name, url)` of every row. -/
def processedKeys (rows : List RowOut) : List (String × String) :=
  rows.map (fun r => (pyStrip r.company_name, pyStrip r.url))

/-- The resume filter of `run`: when any keys were read from the output
file, prospects whose `(company_name, url)` pair is among them are
dropped from the work queue. -/
def resumeFilter (keys prospects : List (String × String)) :
    List (String × String) :=
  if keys = [] then prospects
  else prospects.filter (fun p => !(decide (p ∈ keys)))

end CgRunner

/-! ### Claims about `scrape_site` and resume -/

theorem collect_nil (fetched : String → Option String)
    (phonesOf : String → List String) (ps : List String)
    (h : ∀ p ∈ ps, ∀ html, fetched p = some html →
      CgRunner.extract_emails_list html = [] ∧ phonesOf html = []) :
    ps.foldl (CgRunner.collectStep fetched phonesOf) ([], []) = ([], []) := by
  induction ps with
  | nil => rfl
  | cons p ps ih =>
    have hstep : CgRunner.collectStep fetched phonesOf ([], []) p = ([], []) := by
      unfold CgRunner.collectStep
      cases hf : fetched p with
      | none => rfl
      | some html =>
        have hh := h p (List.mem_cons_self _ _) html hf
        simp [hh.1, hh.2]
    rw [List.foldl_cons, hstep]
    exact ih (fun q hq html hf => h q (List.mem_cons_of_mem _ hq) html hf)

/-- C8: when no candidate page yields an email or a phone — in particular
when every page fetch returns none — `scrape_site` returns exactly one
placeholder row with reason `no_contacts_found`, qualified `no`, score 0,
and empty `email_final` and `phone`. -/
theorem C8_no_contacts_placeholder (resolve : String → String × String)
    (fetched : String → Option String) (phonesOf : String → List String)
    (mx : String → String) (company start_url : String)
    (h : ∀ p ∈ CgRunner.candidate_urls (resolve start_url).1, ∀ html,
      fetched p = some html →
        CgRunner.extract_emails_list html = [] ∧ phonesOf html = []) :
    CgRunner.scrape_site resolve fetched phonesOf mx company start_url =
      [⟨company, (resolve start_url).1, (resolve start_url).2, "", "",
        "unknown", "", "", "no_contacts_found", "no", "", 0⟩] := by
  simp only [CgRunner.scrape_site]
  rw [collect_nil fetched phonesOf _ h]
  simp

/-- C8 witness: a site where every fetch times out produces the single
placeholder row. -/
theorem C8_no_contacts_placeholder_witness :
    CgRunner.scrape_site (fun _ => ("https://acme.com/", "acme.com"))
      (fun _ => none) (fun _ => []) (fun _ => "unknown") "Acme" "acme.com" =
      [⟨"Acme", "https://acme.com/", "acme.com", "", "", "unknown", "", "",
        "no_contacts_found", "no", "", 0⟩] :=
  C8_no_contacts_placeholder (fun _ => ("https://acme.com/", "acme.com"))
    (fun _ => none) (fun _ => []) (fun _ => "unknown") "Acme" "acme.com"
    (fun p _ html hf => by cases hf)

/-- C4 counterexample: seed `("Acme", "acme.com")` was completed by a
previous run — `scrape_site` found an email on the contact page and wrote
a row for it — but that row records the resolved final URL
`https://acme.com/`, not the raw seed url, so on restart the resume filter
does not exclude the seed: the work queue still contains it and it is
reprocessed, where the claim says it never is. -/
theorem C4_resume_reprocesses_completed_seed :
    (CgRunner.scrape_site (fun _ => ("https://acme.com/", "acme.com"))
        (fun p => if p = "https://acme.com/contact"
          then some "email jane@acme.com for quotes" else none)
        (fun _ => []) (fun _ => "unknown") "Acme" "acme.com") ≠ [] ∧
    CgRunner.resumeFilter
      (CgRunner.processedKeys
        (CgRunner.scrape_site (fun _ => ("https://acme.com/", "acme.com"))
          (fun p => if p = "https://acme.com/contact"
            then some "email jane@acme.com for quotes" else none)
          (fun _ => []) (fun _ => "unknown") "Acme" "acme.com"))
      [("Acme", "acme.com")] = [("Acme", "acme.com")] := by
  decide

/-- C4 amended: the resume filter drops exactly the prospects whose
`(company_name, url)` pair literally equals the stripped
`(company_name, url)` of some row of the existing output file, and keeps
all others; completed seeds whose rows recorded a different URL (as
`scrape_site` does, writing the resolved final URL) are reprocessed. -/
theorem C4_resume_filter_spec (rows : List CgRunner.RowOut)
    (prospects : List (String × String)) (p : String × String) :
    p ∈ CgRunner.resumeFilter (CgRunner.processedKeys rows) prospects ↔
      (p ∈ prospects ∧
        ¬ ∃ r ∈ rows, (pyStrip r.company_name, pyStrip r.url) = p) := by
  unfold CgRunner.resumeFilter CgRunner.processedKeys
  split_ifs with h
  · have hrows : rows = [] := by simpa using h
    subst hrows
    simp
  · simp [List.mem_filter, List.mem_map]

namespace CgRunner

/-! ### Per-chunk batch loop of `run` (lines 358-380)

The per-seed pipeline (`scrape_site`) is abstracted as an oracle
`f : seed → Option (List RowOut)`, `none` modelling an uncaught exception.
The sleep and progress printing are side effects with no data flow and are
omitted. -/

/-- Placeholder row appended by the sequential branch of `run` when
processing a seed raises. -/
def error_row (company url : String) : RowOut :=
  ⟨company, url, "", "", "", "unknown", "", "", "error:site", "no", "", 0⟩

/-- Result contributed by one seed in the sequential branch: the scraped
rows, or the `error:site` placeholder when the seed raised. -/
def seqBlock (f : String × String → Option (List RowOut))
    (s : String × String) : List RowOut :=
  match f s with
  | some rows => rows
  | none => [error_row s.1 s.2]

/-- Sequential per-chunk loop of `run` (`site_concurrency ≤ 1`): every
seed contributes its block, in batch order. -/
def runBatchSeq (f : String × String → Option (List RowOut)) :
    List (String × String) → List RowOut
  | [] => []
  | s :: rest => seqBlock f s ++ runBatchSeq f rest

/-- Result contributed by one completed future in the concurrent branch:
the scraped rows, or nothing when the seed raised (`except Exception:
pass`). -/
def concBlock (f : String × String → Option (List RowOut))
    (s : String × String) : List RowOut :=
  match f s with
  | some rows => rows
  | none => []

/-- Concurrent per-chunk loop of `run` (`site_concurrency > 1`): results
are collected in future-completion order (the argument list, a permutation
of the batch). -/
def runBatchConc (f : String × String → Option (List RowOut)) :
    List (String × String) → List RowOut
  | [] => []
  | s :: rest => concBlock f s ++ runBatchConc f rest

/-- Test for the `error:site` placeholder of seed `(c, u)`. -/
def isSeedErrorRow (c u : String) (r : RowOut) : Bool :=
  r.reason == "error:site" && r.company_name == c && r.url == u

end CgRunner

/-! ### Claims about per-site error isolation in `run` -/

theorem countP_seedError_eq_zero (c u : String) (rows : List CgRunner.RowOut)
    (hok : ∀ r ∈ rows, r.reason ≠ "error:site") :
    rows.countP (CgRunner.isSeedErrorRow c u) = 0 := by
  apply List.countP_eq_zero.mpr
  intro r hr
  simp [CgRunner.isSeedErrorRow, hok r hr]

theorem isSeedErrorRow_error_row (c u a b : String) :
    CgRunner.isSeedErrorRow c u (CgRunner.error_row a b) = (a == c && b == u) := by
  simp [CgRunner.isSeedErrorRow, CgRunner.error_row]

theorem seqBlock_countP (f : String × String → Option (List CgRunner.RowOut))
    (c u a b : String)
    (hok : ∀ rows, f (a, b) = some rows → ∀ r ∈ rows, r.reason ≠ "error:site") :
    (CgRunner.seqBlock f (a, b)).countP (CgRunner.isSeedErrorRow c u) =
      if f (a, b) = none ∧ a = c ∧ b = u then 1 else 0 := by
  unfold CgRunner.seqBlock
  cases hf : f (a, b) with
  | some rows =>
    rw [countP_seedError_eq_zero c u rows (hok rows hf)]
    simp
  | none =>
    simp only [List.countP_cons, List.countP_nil, isSeedErrorRow_error_row]
    by_cases h1 : a = c <;> by_cases h2 : b = u <;> simp [h1, h2]

theorem runBatchSeq_countP_zero (f : String × String → Option (List CgRunner.RowOut))
    (c u : String)
    (hok : ∀ s rows, f s = some rows → ∀ r ∈ rows, r.reason ≠ "error:site") :
    ∀ batch : List (String × String), (c, u) ∉ batch →
      (CgRunner.runBatchSeq f batch).countP (CgRunner.isSeedErrorRow c u) = 0 := by
  intro batch
  induction batch with
  | nil => intro _; rfl
  | cons s rest ih =>
    intro hnm
    obtain ⟨a, b⟩ := s
    simp only [CgRunner.runBatchSeq, List.countP_append]
    rw [seqBlock_countP f c u a b (fun rows hf => hok (a, b) rows hf)]
    rw [if_neg (by rintro ⟨-, rfl, rfl⟩; exact hnm (List.mem_cons_self _ _))]
    simpa using ih (fun hx => hnm (List.mem_cons_of_mem _ hx))

theorem runBatchSeq_countP_one (f : String × String → Option (List CgRunner.RowOut))
    (c u : String)
    (hok : ∀ s rows, f s = some rows → ∀ r ∈ rows, r.reason ≠ "error:site")
    (hfail : f (c, u) = none) :
    ∀ batch : List (String × String), (c, u) ∈ batch → batch.Nodup →
      (CgRunner.runBatchSeq f batch).countP (CgRunner.isSeedErrorRow c u) = 1 := by
  intro batch
  induction batch with
  | nil => intro hmem _; cases hmem
  | cons s rest ih =>
    intro hmem hnodup
    obtain ⟨a, b⟩ := s
    simp only [CgRunner.runBatchSeq, List.countP_append]
    rcases List.mem_cons.mp hmem with he | hrest
    · injection he with h1 h2
      subst h1
      subst h2
      rw [seqBlock_countP f c u c u (fun rows hf => hok (c, u) rows hf)]
      rw [if_pos ⟨hfail, rfl, rfl⟩]
      rw [runBatchSeq_countP_zero f c u hok rest (List.nodup_cons.mp hnodup).1]
    · have hane : ¬(a = c ∧ b = u) := by
        rintro ⟨rfl, rfl⟩
        exact (List.nodup_cons.mp hnodup).1 hrest
      rw [seqBlock_countP f c u a b (fun rows hf => hok (a, b) rows hf)]
      rw [if_neg (by rintro ⟨-, rfl, rfl⟩; exact hane ⟨rfl, rfl⟩)]
      simpa using ih hrest (List.nodup_cons.mp hnodup).2

theorem runBatchSeq_mem (f : String × String → Option (List CgRunner.RowOut)) :
    ∀ batch : List (String × String), ∀ s ∈ batch, ∀ rows, f s = some rows →
      ∀ r ∈ rows, r ∈ CgRunner.runBatchSeq f batch := by
  intro batch
  induction batch with
  | nil => intro s hs; cases hs
  | cons t rest ih =>
    intro s hs rows hf r hr
    simp only [CgRunner.runBatchSeq, List.mem_append]
    rcases List.mem_cons.mp hs with he | hrest
    · left
      subst he
      unfold CgRunner.seqBlock
      rw [hf]
      exact hr
    · right
      exact ih s hrest rows hf r hr

theorem runBatchConc_countP_zero (f : String × String → Option (List CgRunner.RowOut))
    (c u : String)
    (hok : ∀ s rows, f s = some rows → ∀ r ∈ rows, r.reason ≠ "error:site") :
    ∀ order : List (String × String),
      (CgRunner.runBatchConc f order).countP (CgRunner.isSeedErrorRow c u) = 0 := by
  intro order
  induction order with
  | nil => rfl
  | cons s rest ih =>
    simp only [CgRunner.runBatchConc, List.countP_append]
    have hblock : (CgRunner.concBlock f s).countP (CgRunner.isSeedErrorRow c u) = 0 := by
      unfold CgRunner.concBlock
      cases hf : f s with
      | some rows => exact countP_seedError_eq_zero c u rows (hok s rows hf)
      | none => rfl
    rw [hblock]
    simpa using ih

theorem runBatchConc_mem (f : String × String → Option (List CgRunner.RowOut)) :
    ∀ order : List (String × String), ∀ s ∈ order, ∀ rows, f s = some rows →
      ∀ r ∈ rows, r ∈ CgRunner.runBatchConc f order := by
  intro order
  induction order with
  | nil => intro s hs; cases hs
  | cons t rest ih =>
    intro s hs rows hf r hr
    simp only [CgRunner.runBatchConc, List.mem_append]
    rcases List.mem_cons.mp hs with he | hrest
    · left
      subst he
      unfold CgRunner.concBlock
      rw [hf]
      exact hr
    · right
      exact ih s hrest rows hf r hr

/-- C3 counterexample: a batch in which processing seed
`("Bad", "bad.com")` raises.  Run by the concurrent worker pool the
controller emits NO `error:site` placeholder for it (the future's
exception is swallowed by `pass`), while the sequential loop emits exactly
one — so the claim, which demands exactly one placeholder regardless of
the site-concurrency setting, is false for the concurrent pool. -/
theorem C3_concurrent_drops_placeholder :
    ¬ ((CgRunner.runBatchConc
        (fun s => if s.1 = "Bad" then none
          else some [⟨s.1, s.2, "good.com", "a@good.com", "mailto/raw/decoded",
            "unknown", "", "https://good.com/", "regex_scrape", "yes", "", 90⟩])
        [("Bad", "bad.com"), ("Good", "good.com")]).countP
          (CgRunner.isSeedErrorRow "Bad" "bad.com") = 1) ∧
    (CgRunner.runBatchSeq
        (fun s => if s.1 = "Bad" then none
          else some [⟨s.1, s.2, "good.com", "a@good.com", "mailto/raw/decoded",
            "unknown", "", "https://good.com/", "regex_scrape", "yes", "", 90⟩])
        [("Bad", "bad.com"), ("Good", "good.com")]).countP
          (CgRunner.isSeedErrorRow "Bad" "bad.com") = 1 := by
  decide

/-- C3 amended: in the sequential loop an uncaught per-seed exception
yields exactly one `error:site` placeholder for that seed and every
successfully processed seed's rows still appear; in the concurrent loop
the failing seed contributes no record at all (zero placeholders), though
the other seeds are still processed. -/
theorem C3_error_isolation_amended
    (f : String × String → Option (List CgRunner.RowOut))
    (batch order : List (String × String)) (c u : String)
    (_hperm : order.Perm batch)
    (hmem : (c, u) ∈ batch) (hnodup : batch.Nodup)
    (hfail : f (c, u) = none)
    (hok : ∀ s rows, f s = some rows → ∀ r ∈ rows, r.reason ≠ "error:site") :
    ((CgRunner.runBatchSeq f batch).countP (CgRunner.isSeedErrorRow c u) = 1 ∧
      ∀ s ∈ batch, ∀ rows, f s = some rows → ∀ r ∈ rows,
        r ∈ CgRunner.runBatchSeq f batch) ∧
    ((CgRunner.runBatchConc f order).countP (CgRunner.isSeedErrorRow c u) = 0 ∧
      ∀ s ∈ order, ∀ rows, f s = some rows → ∀ r ∈ rows,
        r ∈ CgRunner.runBatchConc f order) :=
  ⟨⟨runBatchSeq_countP_one f c u hok hfail batch hmem hnodup,
    runBatchSeq_mem f batch⟩,
   ⟨runBatchConc_countP_zero f c u hok order,
    runBatchConc_mem f order⟩⟩

/-- C3 amended, witnessed on the concrete two-seed batch of the
counterexample. -/
theorem C3_error_isolation_witness :
    ((CgRunner.runBatchSeq
        (fun s => if s.1 = "Bad" then none
          else some [⟨s.1, s.2, "good.com", "a@good.com", "mailto/raw/decoded",
            "unknown", "", "https://good.com/", "regex_scrape", "yes", "", 90⟩])
        [("Bad", "bad.com"), ("Good", "good.com")]).countP
          (CgRunner.isSeedErrorRow "Bad" "bad.com") = 1 ∧
      ∀ s ∈ [(("Bad" : String), ("bad.com" : String)), ("Good", "good.com")],
        ∀ rows, (fun s => if s.1 = "Bad" then none
          else some [⟨s.1, s.2, "good.com", "a@good.com", "mailto/raw/decoded",
            "unknown", "", "https://good.com/", "regex_scrape", "yes", "", 90⟩]) s = some rows →
          ∀ r ∈ rows, r ∈ CgRunner.runBatchSeq
            (fun s => if s.1 = "Bad" then none
              else some [⟨s.1, s.2, "good.com", "a@good.com", "mailto/raw/decoded",
                "unknown", "", "https://good.com/", "regex_scrape", "yes", "", 90⟩])
            [("Bad", "bad.com"), ("Good", "good.com")]) ∧
    ((CgRunner.runBatchConc
        (fun s => if s.1 = "Bad" then none
          else some [⟨s.1, s.2, "good.com", "a@good.com", "mailto/raw/decoded",
            "unknown", "", "https://good.com/", "regex_scrape", "yes", "", 90⟩])
        [("Good", "good.com"), ("Bad", "bad.com")]).countP
          (CgRunner.isSeedErrorRow "Bad" "bad.com") = 0 ∧
      ∀ s ∈ [(("Good" : String), ("good.com" : String)), ("Bad", "bad.com")],
        ∀ rows, (fun s => if s.1 = "Bad" then none
          else some [⟨s.1, s.2, "good.com", "a@good.com", "mailto/raw/decoded",
            "unknown", "", "https://good.com/", "regex_scrape", "yes", "", 90⟩]) s = some rows →
          ∀ r ∈ rows, r ∈ CgRunner.runBatchConc
            (fun s => if s.1 = "Bad" then none
              else some [⟨s.1, s.2, "good.com", "a@good.com", "mailto/raw/decoded",
                "unknown", "", "https://good.com/", "regex_scrape", "yes", "", 90⟩])
            [("Good", "good.com"), ("Bad", "bad.com")]) :=
  C3_error_isolation_amended
    (fun s => if s.1 = "Bad" then none
      else some [⟨s.1, s.2, "good.com", "a@good.com", "mailto/raw/decoded",
        "unknown", "", "https://good.com/", "regex_scrape", "yes", "", 90⟩])
    [("Bad", "bad.com"), ("Good", "good.com")]
    [("Good", "good.com"), ("Bad", "bad.com")]
    "Bad" "bad.com" (by decide) (by decide) (by decide) (by decide)
    (by
      intro s rows hf r hr
      dsimp only at hf
      by_cases hb : s.1 = "Bad"
      · rw [if_pos hb] at hf
        cases hf
      · rw [if_neg hb] at hf
        injection hf with hrows
        subst hrows
        have hr1 := List.mem_singleton.mp hr
        subst hr1
        show ("regex_scrape" : String) ≠ "error:site"
        decide)

end ConcreteGenius
